import Mathlib

-- Verification development for the Price-Feed-Parser ingestion engine
-- (src/src/lambda/ingest_lambda.py), a shallow embedding of its data model
-- and operations: credentials and single-serialized token refresh, the
-- async token bucket, S3 key derivation, the per-symbol fetch/retry loop,
-- and the run summary / handler exit logic.

-- ---------- Credentials ----------

-- Python truthiness for an optional string field of the CREDENTIALS dict:
-- absent or empty strings are falsy.
def present : Option String → Bool
  | none => false
  | some s => s != ""

-- The CREDENTIALS dict of ingest_lambda.py (keys access_token, client_id,
-- refresh_token, app_secret).
structure Creds where
  client_id : Option String
  access_token : Option String
  refresh_token : Option String
  app_secret : Option String
deriving DecidableEq, Repr

-- `client_id and refresh_token and app_secret` guard of
-- refresh_access_token_async (line 191).
def refreshFields (c : Creds) : Bool :=
  present c.client_id && present c.refresh_token && present c.app_secret

-- ---------- Token refresh ----------

-- One response of the refresh endpoint as seen by
-- refresh_access_token_async: a non-200 HTTP status, a 200 with a JSON
-- dict carrying fields s and access_token, a 200 whose body is not a
-- dict, or a raised exception (transport error or JSON parse error).
inductive RefreshResp where
  | httpErr (status : Nat)
  | body (s : String) (access_token : Option String)
  | nonDict
  | exn
deriving DecidableEq, Repr

-- The JSON body POSTed to the refresh endpoint (lines 196-200).
structure RefreshRequest where
  grant_type : String
  appIdHash : String
  refresh_token : String
deriving DecidableEq, Repr

-- hashlib.sha256(...).hexdigest() is an external primitive; the hex
-- digest function is a parameter of the model.
def refreshRequestFor (hash : String → String) (client_id app_secret refresh_token : String) : RefreshRequest :=
  { grant_type := "refresh_token"
    appIdHash := hash (client_id ++ ":" ++ app_secret)
    refresh_token := refresh_token }

-- Outcome of one refresh_access_token_async call: the returned token (or
-- none), the CREDENTIALS dict afterwards, and the network exchange the
-- call issued (none when the missing-fields guard returned early).
structure RefreshStep where
  result : Option String
  creds : Creds
  exchange : Option RefreshRequest
deriving DecidableEq, Repr

-- refresh_access_token_async (lines 175-225), one call, the lock held
-- throughout. The double-check block under the lock (lines 183-186) is a
-- no-op (pass) in the source, so it is not modelled. Persisting the new
-- token to Secrets Manager is best-effort and does not affect the result.
def refresh_access_token_async (hash : String → String) (c : Creds) (resp : RefreshResp) : RefreshStep :=
  if refreshFields c then
    let req := refreshRequestFor hash (c.client_id.getD "") (c.app_secret.getD "") (c.refresh_token.getD "")
    match resp with
    | .body s tok =>
        if s == "ok" && present tok then
          { result := tok, creds := { c with access_token := tok }, exchange := some req }
        else
          { result := none, creds := c, exchange := some req }
    | _ => { result := none, creds := c, exchange := some req }
  else
    { result := none, creds := c, exchange := none }

-- K refresh calls serialized by refresh_lock: since the lock is held for
-- the whole body of refresh_access_token_async, concurrent callers run
-- one after the other, each against the credentials state left by its
-- predecessor and its own response from the endpoint.
structure SerialRefreshOut where
  outcomes : List (Option String)
  creds : Creds
  exchanges : Nat
deriving DecidableEq, Repr

def refreshSerial (hash : String → String) : Creds → List RefreshResp → SerialRefreshOut
  | c, [] => { outcomes := [], creds := c, exchanges := 0 }
  | c, r :: rs =>
      let s := refresh_access_token_async hash c r
      let rest := refreshSerial hash s.creds rs
      { outcomes := s.result :: rest.outcomes
        creds := rest.creds
        exchanges := (if s.exchange.isSome then 1 else 0) + rest.exchanges }

-- ---------- Token bucket ----------

-- AsyncTokenBucket (lines 88-108). The mutable fields rate, capacity and
-- tokens; the monotonic clock is modelled by feeding each consumption
-- pass the elapsed time since the previous pass (always nonnegative for
-- a monotonic clock). Numerics are modelled over the rationals.
structure AsyncTokenBucket where
  rate : ℚ
  capacity : ℚ
  tokens : ℚ
deriving DecidableEq, Repr

def AsyncTokenBucket.init (rate capacity : ℚ) : AsyncTokenBucket :=
  { rate := rate, capacity := capacity, tokens := capacity }

-- The lazy top-up at the head of each pass of the consume loop
-- (lines 99-101): tokens = min(capacity, tokens + elapsed * rate).
def AsyncTokenBucket.refillBy (b : AsyncTokenBucket) (elapsed : ℚ) : AsyncTokenBucket :=
  { b with tokens := min b.capacity (b.tokens + elapsed * b.rate) }

-- One pass of the while-loop body of consume (lines 97-108): refill, then
-- either debit (enough tokens: the call returns) or leave the bucket and
-- sleep (the Bool records whether the debit happened).
def AsyncTokenBucket.consumeStep (b : AsyncTokenBucket) (elapsed amount : ℚ) : AsyncTokenBucket × Bool :=
  let b1 := b.refillBy elapsed
  if amount ≤ b1.tokens then ({ b1 with tokens := b1.tokens - amount }, true)
  else (b1, false)

-- A sequence of unit-demand consumption passes at arbitrary times.
def AsyncTokenBucket.runUnit (b : AsyncTokenBucket) (els : List ℚ) : AsyncTokenBucket :=
  els.foldl (fun s e => (s.consumeStep e 1).fst) b

-- The invariant claimed for RateBudget: available tokens within
-- [0, capacity].
def AsyncTokenBucket.inv (b : AsyncTokenBucket) : Prop :=
  0 ≤ b.tokens ∧ b.tokens ≤ b.capacity

-- ---------- S3 key derivation ----------

-- Defaults of the RAW and DLQ key roots (env vars at lines 40-41).
def rawRoot : String := "ohlcv/raw/"

def dlqRoot : String := "ohlcv/errors/"

-- Python str.split with a one-character separator, over the character
-- list of the string (all separators in the source are one character).
def splitChar (sep : Char) : List Char → List (List Char)
  | [] => [[]]
  | c :: cs =>
    match splitChar sep cs with
    | [] => [[]]
    | grp :: rest => if c = sep then [] :: grp :: rest else (c :: grp) :: rest

-- Python str.replace with one-character pattern and replacement.
def replaceChar (a b : Char) (l : List Char) : List Char :=
  l.map (fun c => if c = a then b else c)

-- symbol.replace with underscores (lines 64, 69).
def sanitizeSymbol (s : String) : String :=
  String.mk (replaceChar '/' '_' (replaceChar ':' '_' s.data))

-- The yyyy, mm, dd unpacking of split("T")[0].split("-") shared by both
-- key builders; Python raises unless the date has exactly three
-- dash-separated fields, which is the none branch here.
def dateParts (ts : String) : Option (String × String × String) :=
  match splitChar '-' ((splitChar 'T' ts.data).headD []) with
  | [yyyy, mm, dd] => some (String.mk yyyy, String.mk mm, String.mk dd)
  | _ => none

-- s3_key_for_raw (lines 61-65).
def s3_key_for_raw (symbol ts : String) : Option String :=
  match dateParts ts with
  | some (yyyy, mm, dd) =>
      some (rawRoot ++ "symbol=" ++ sanitizeSymbol symbol ++ "/exchange=NSE/year=" ++ yyyy
        ++ "/month=" ++ mm ++ "/day=" ++ dd ++ "/ingest-" ++ ts ++ ".json")
  | none => none

-- s3_key_for_dlq (lines 67-70). Note the source writes a literal segment
-- day/{dd} (slash, not equals) and no exchange segment.
def s3_key_for_dlq (symbol ts : String) : Option String :=
  match dateParts ts with
  | some (yyyy, mm, dd) =>
      some (dlqRoot ++ "symbol=" ++ sanitizeSymbol symbol ++ "/year=" ++ yyyy
        ++ "/month=" ++ mm ++ "/day/" ++ dd ++ "/failed-" ++ ts ++ ".json")
  | none => none

-- Modelled from the claim C8 wording (refinement target, not source
-- code): the success key layout with the symbol substituted verbatim.
def claimRawKey (symbol ts : String) : Option String :=
  match dateParts ts with
  | some (yyyy, mm, dd) =>
      some (rawRoot ++ "symbol=" ++ symbol ++ "/exchange=NSE/year=" ++ yyyy
        ++ "/month=" ++ mm ++ "/day=" ++ dd ++ "/ingest-" ++ ts ++ ".json")
  | none => none

-- Modelled from the claim C8 wording (refinement target, not source
-- code): a dead-letter key with the same partition segments symbol=,
-- year=, month=, day=, differing from the success key only in root and
-- file name.
def claimDlqKey (symbol ts : String) : Option String :=
  match dateParts ts with
  | some (yyyy, mm, dd) =>
      some (dlqRoot ++ "symbol=" ++ symbol ++ "/year=" ++ yyyy
        ++ "/month=" ++ mm ++ "/day=" ++ dd ++ "/failed-" ++ ts ++ ".json")
  | none => none

-- ---------- Fetch worker ----------

-- The body of a 200 response once parsed: a dict with s == "error" and a
-- message, or anything else (the success path; a JSON parse failure also
-- lands there as a raw_text dict). For the success branch, sinkOk records
-- whether the s3_put_raw call succeeds or raises.
inductive Body200 where
  | errorBody (msg : String)
  | successBody (sinkOk : Bool)
deriving DecidableEq, Repr

-- What one HTTP attempt of fetch_one observes: a 200 with a body, a
-- non-200 status, a timeout, or another raised exception.
inductive HttpEvent where
  | http200 (b : Body200)
  | httpStatus (code : Nat)
  | timeout
  | netExn
deriving DecidableEq, Repr

-- The environment of one attempt: the HTTP observation plus the refresh
-- endpoint responses used if this attempt triggers a refresh (one slot
-- for the missing-credentials refresh at the head of the attempt, one for
-- an auth-triggered refresh after the response).
structure AttemptEnv where
  http : HttpEvent
  refreshMissing : RefreshResp
  refreshAuth : RefreshResp
deriving DecidableEq, Repr

-- The 5-tuple fetch_one returns: (symbol, succeeded, attempts, status,
-- note).
structure IngestResult where
  symbol : String
  succeeded : Bool
  attempts_used : Nat
  http_status : Option Nat
  note : Option String
deriving DecidableEq, Repr

-- The diagnostic fields of the dead-letter payload built at lines
-- 380-386 (the timestamp and echoed request params are omitted).
structure DlqRecord where
  symbol : String
  attempts : Nat
  note : String
deriving DecidableEq, Repr

-- A fetch_one execution: its result, the dead-letter records written,
-- and the number of successful raw-payload sink writes.
structure FetchOutput where
  result : IngestResult
  dlq : List DlqRecord
  sinkWrites : Nat
deriving DecidableEq, Repr

-- err_info at line 376: the note is a fixed string built from
-- MAX_ATTEMPTS only.
def exhaustNote (mA : Nat) : String :=
  "Exhausted " ++ toString mA ++ " attempts"

-- The dead-letter exit after the loop (lines 375-388), reached by break
-- or by exhaustion, with the current value of the attempt counter.
def dlqExit (mA : Nat) (sym : String) (attempt : Nat) : FetchOutput :=
  { result := { symbol := sym, succeeded := false, attempts_used := attempt
                http_status := none, note := some (exhaustNote mA) }
    dlq := [{ symbol := sym, attempts := attempt, note := exhaustNote mA }]
    sinkWrites := 0 }

-- The success return (line 316) after a successful raw write.
def successOut (sym : String) (attempt : Nat) : FetchOutput :=
  { result := { symbol := sym, succeeded := true, attempts_used := attempt
                http_status := some 200, note := none }
    dlq := []
    sinkWrites := 1 }

-- The missing-credentials return (line 268): a failed result with no
-- dead-letter write.
def missingOut (sym : String) (attempt : Nat) : FetchOutput :=
  { result := { symbol := sym, succeeded := false, attempts_used := attempt
                http_status := none, note := some "missing_credentials" }
    dlq := []
    sinkWrites := 0 }

-- Python substring membership: pat in s.
def strContains (s pat : String) : Bool :=
  decide (pat.data <:+: s.data)

-- Python str.lower, for the ASCII messages the broker sends.
def lowerStr (s : String) : String :=
  String.mk (s.data.map Char.toLower)

-- The auth-hint test at line 295 on the lowered message.
def authHint (msg : String) : Bool :=
  let m := lowerStr msg
  strContains m "auth" || strContains m "token" || strContains m "authenticate"

-- client_id and access_token both present (line 259).
def credsReady (c : Creds) : Bool :=
  present c.client_id && present c.access_token

-- Lines 259-266: when a credential is missing and a refresh token
-- exists, refresh aggressively before re-checking.
def credRefreshIfMissing (hash : String → String) (c : Creds) (r : RefreshResp) : Creds :=
  if credsReady c then c
  else if present c.refresh_token then (refresh_access_token_async hash c r).creds
  else c

-- What one iteration of the attempt loop decides: finish with an output,
-- or go around again (continue) with the possibly-updated credentials.
inductive StepRes where
  | done (out : FetchOutput)
  | retry (c : Creds)
deriving DecidableEq, Repr

-- Classification of the HTTP observation for attempt a (lines 278-373),
-- with the credentials already validated as present:
--   200 with s == "error": auth-hinting message and a refresh token
--     present -> refresh, retry on success, break on failure; any other
--     inline error -> backoff and retry.
--   200 otherwise: success path; a raised sink write maps to the generic
--     exception handler (backoff and retry), else return success.
--   429 and 5xx: backoff and retry.
--   401/403: refresh if a refresh token is present; retry on refreshed
--     token, break otherwise.
--   any other status: backoff and retry.
--   timeout or exception: backoff and retry.
def classify (hash : String → String) (mA : Nat) (sym : String) (c : Creds) (a : Nat) (e : AttemptEnv) : StepRes :=
  match e.http with
  | .http200 (.errorBody msg) =>
      if authHint msg && present c.refresh_token then
        match (refresh_access_token_async hash c e.refreshAuth).result with
        | some _ => .retry (refresh_access_token_async hash c e.refreshAuth).creds
        | none => .done (dlqExit mA sym a)
      else .retry c
  | .http200 (.successBody sinkOk) =>
      if sinkOk then .done (successOut sym a) else .retry c
  | .httpStatus code =>
      if code = 429 then .retry c
      else if 500 ≤ code ∧ code < 600 then .retry c
      else if code = 401 ∨ code = 403 then
        if present c.refresh_token then
          match (refresh_access_token_async hash c e.refreshAuth).result with
          | some _ => .retry (refresh_access_token_async hash c e.refreshAuth).creds
          | none => .done (dlqExit mA sym a)
        else .done (dlqExit mA sym a)
      else .retry c
  | .timeout => .retry c
  | .netExn => .retry c

-- One full iteration of the attempt loop for attempt a: credential check
-- (with aggressive refresh) first, then the HTTP attempt and its
-- classification.
def attemptStep (hash : String → String) (mA : Nat) (sym : String) (c : Creds) (a : Nat) (e : AttemptEnv) : StepRes :=
  let c1 := credRefreshIfMissing hash c e.refreshMissing
  if credsReady c1 then classify hash mA sym c1 a e
  else .done (missingOut sym a)

-- The while-loop of fetch_one (line 250): attempt counts iterations done
-- so far, fuel is MAX_ATTEMPTS minus attempt; running out of fuel is the
-- loop guard failing, which falls through to the dead-letter exit.
def fetchGo (hash : String → String) (mA : Nat) (env : Nat → AttemptEnv) (sym : String) : Creds → Nat → Nat → FetchOutput
  | _, attempt, 0 => dlqExit mA sym attempt
  | c, attempt, fuel + 1 =>
      match attemptStep hash mA sym c (attempt + 1) (env (attempt + 1)) with
      | .done out => out
      | .retry c1 => fetchGo hash mA env sym c1 (attempt + 1) fuel

-- fetch_one (lines 228-388) for one symbol, driven by the per-attempt
-- environment env (env i describes attempt number i).
def fetch_one (hash : String → String) (mA : Nat) (env : Nat → AttemptEnv) (sym : String) (c : Creds) : FetchOutput :=
  fetchGo hash mA env sym c 0 mA

-- ---------- Run summary and handler ----------

structure RunSummary where
  success : Nat
  failed : Nat
  total : Nat
deriving DecidableEq, Repr

-- The per-task guard in the as_completed loop (lines 419-425): a task
-- that raises still contributes exactly one failed result tuple
-- (None, False, 0, None, str(e)) and never aborts the other tasks.
def taskResult (o : Option IngestResult) : IngestResult :=
  match o with
  | some r => r
  | none => { symbol := "", succeeded := false, attempts_used := 0
              http_status := none, note := some "unhandled_exception" }

-- run_once (lines 392-435) at the summary level: one outcome per ticker
-- (none for a task that raised), success counts results with succeeded
-- true, failed is the rest, total is the ticker count.
def run_once (tickers : List String) (outcome : String → Option IngestResult) : RunSummary :=
  let results := tickers.map (fun t => taskResult (outcome t))
  let nSuccess := (results.filter (fun r => r.succeeded)).length
  { success := nSuccess, failed := results.length - nSuccess, total := tickers.length }

inductive HandlerOutcome where
  | ok (statusCode : Nat) (body : RunSummary)
  | raised (msg : String)
deriving DecidableEq, Repr

def HandlerOutcome.isRaised : HandlerOutcome → Bool
  | .raised _ => true
  | .ok _ _ => false

-- lambda_handler (lines 438-448) applied to a completed run summary:
-- raise when failed > 0, else return statusCode 200.
def lambda_handler (s : RunSummary) : HandlerOutcome :=
  if 0 < s.failed then .raised (toString s.failed ++ " symbols failed to ingest.")
  else .ok 200 s

-- main (lines 451-455): exit code 2 when failed > 0, else 0.
def mainExitCode (s : RunSummary) : Nat :=
  if 0 < s.failed then 2 else 0

-- ---------- Theorems: token bucket (C4) ----------

theorem AsyncTokenBucket.consumeStep_rate (b : AsyncTokenBucket) (e a : ℚ) :
    ((b.consumeStep e a).fst).rate = b.rate := by
  unfold AsyncTokenBucket.consumeStep AsyncTokenBucket.refillBy
  dsimp only
  split <;> rfl

theorem AsyncTokenBucket.runUnit_rate (b : AsyncTokenBucket) (els : List ℚ) :
    (b.runUnit els).rate = b.rate := by
  induction els generalizing b with
  | nil => rfl
  | cons x xs ih =>
      have h1 : b.runUnit (x :: xs) = ((b.consumeStep x 1).fst).runUnit xs := by
        simp [AsyncTokenBucket.runUnit]
      rw [h1, ih, AsyncTokenBucket.consumeStep_rate]

theorem AsyncTokenBucket.inv_refillBy (b : AsyncTokenBucket) (e : ℚ)
    (hr : 0 ≤ b.rate) (he : 0 ≤ e) (hb : b.inv) : (b.refillBy e).inv := by
  obtain ⟨h0, hc⟩ := hb
  unfold AsyncTokenBucket.inv AsyncTokenBucket.refillBy
  constructor
  · exact le_min (h0.trans hc) (add_nonneg h0 (mul_nonneg he hr))
  · exact min_le_left _ _

theorem AsyncTokenBucket.inv_consumeStep (b : AsyncTokenBucket) (e : ℚ)
    (hr : 0 ≤ b.rate) (he : 0 ≤ e) (hb : b.inv) : ((b.consumeStep e 1).fst).inv := by
  have h1 := AsyncTokenBucket.inv_refillBy b e hr he hb
  obtain ⟨h10, h1c⟩ := h1
  unfold AsyncTokenBucket.consumeStep
  dsimp only
  split
  case isTrue h =>
      refine ⟨?_, ?_⟩ <;> unfold AsyncTokenBucket.inv at * <;> dsimp only <;> linarith
  case isFalse h => exact ⟨h10, h1c⟩

theorem AsyncTokenBucket.inv_runUnit (b : AsyncTokenBucket) (els : List ℚ)
    (hr : 0 ≤ b.rate) (he : ∀ e ∈ els, 0 ≤ e) (hb : b.inv) : (b.runUnit els).inv := by
  induction els generalizing b with
  | nil => exact hb
  | cons x xs ih =>
      have hx : 0 ≤ x := he x (List.mem_cons_self x xs)
      have h1 := AsyncTokenBucket.inv_consumeStep b x hr hx hb
      have h2 : 0 ≤ ((b.consumeStep x 1).fst).rate := by
        rw [AsyncTokenBucket.consumeStep_rate]; exact hr
      have h3 := ih ((b.consumeStep x 1).fst) h2 (fun e hm => he e (List.mem_cons_of_mem x hm)) h1
      have h4 : b.runUnit (x :: xs) = ((b.consumeStep x 1).fst).runUnit xs := by
        simp [AsyncTokenBucket.runUnit]
      rw [h4]; exact h3

/-- C4: for every token bucket and every sequence of unit-demand
consumption passes at arbitrary (nonnegative) elapsed times, the
available token count stays in [0, capacity] after every consumption
pass and after any further lazy refill: it never goes negative and never
exceeds capacity. -/
theorem c4_bucket_invariant (rate cap : ℚ) (els : List ℚ) (i : ℕ)
    (hr : 0 ≤ rate) (hc : 0 ≤ cap) (he : ∀ e ∈ els, 0 ≤ e) :
    ((AsyncTokenBucket.init rate cap).runUnit (List.take i els)).inv ∧
    ∀ e : ℚ, 0 ≤ e →
      (((AsyncTokenBucket.init rate cap).runUnit (List.take i els)).refillBy e).inv := by
  have hb : (AsyncTokenBucket.init rate cap).inv := ⟨hc, le_refl _⟩
  have htake : ∀ e ∈ List.take i els, 0 ≤ e := fun e hm => he e (List.take_subset i els hm)
  have hmain := AsyncTokenBucket.inv_runUnit (AsyncTokenBucket.init rate cap) (List.take i els) hr htake hb
  refine ⟨hmain, fun e he0 => AsyncTokenBucket.inv_refillBy _ e ?_ he0 hmain⟩
  rw [AsyncTokenBucket.runUnit_rate]
  exact hr

theorem c4_bucket_invariant_witness :
    (0:ℚ) ≤ 9 ∧ (0:ℚ) ≤ 9 ∧ (∀ e ∈ ([0, 1, 3] : List ℚ), 0 ≤ e) ∧
    ((AsyncTokenBucket.init 9 9).runUnit (List.take 3 ([0, 1, 3] : List ℚ))).inv :=
  ⟨by norm_num, by norm_num, by decide,
    (c4_bucket_invariant 9 9 [0, 1, 3] 3 (by norm_num) (by norm_num) (by decide)).1⟩

-- ---------- Theorems: run summary and handler (C7) ----------

/-- C7: the run produces a summary whose success field counts symbols
with a succeeded result, failed counts the rest, success + failed =
total, and the run as a whole signals failure (handler raises; process
exit code nonzero) exactly when failed > 0; every ticker contributes
exactly one result even when its task raises, so an individual failure
never aborts the processing of sibling symbols. -/
theorem c7_run_summary (tickers : List String) (outcome : String → Option IngestResult) :
    (run_once tickers outcome).total = tickers.length ∧
    (run_once tickers outcome).success
      = ((tickers.map (fun t => taskResult (outcome t))).filter (fun r => r.succeeded)).length ∧
    (run_once tickers outcome).success + (run_once tickers outcome).failed
      = (run_once tickers outcome).total ∧
    ((lambda_handler (run_once tickers outcome)).isRaised = true
      ↔ 0 < (run_once tickers outcome).failed) ∧
    (mainExitCode (run_once tickers outcome) ≠ 0 ↔ 0 < (run_once tickers outcome).failed) := by
  refine ⟨rfl, rfl, ?_, ?_, ?_⟩
  · show ((tickers.map (fun t => taskResult (outcome t))).filter (fun r => r.succeeded)).length
        + (_ - _) = tickers.length
    have hle := List.length_filter_le (fun r => r.succeeded) (tickers.map (fun t => taskResult (outcome t)))
    have hmap := List.length_map tickers (fun t => taskResult (outcome t))
    omega
  · by_cases h : 0 < (run_once tickers outcome).failed <;>
      simp [lambda_handler, HandlerOutcome.isRaised, h]
  · by_cases h : 0 < (run_once tickers outcome).failed <;>
      simp [mainExitCode, h]

-- ---------- Theorems: token refresh (C1, C9) ----------

theorem present_iff (o : Option String) : present o = true ↔ ∃ u, o = some u ∧ u ≠ "" := by
  cases o <;> simp [present]

theorem refresh_preserves_fields (hash : String → String) (c : Creds) (r : RefreshResp) :
    (refresh_access_token_async hash c r).creds.client_id = c.client_id ∧
    (refresh_access_token_async hash c r).creds.refresh_token = c.refresh_token ∧
    (refresh_access_token_async hash c r).creds.app_secret = c.app_secret := by
  unfold refresh_access_token_async
  by_cases hf : refreshFields c = true
  · simp only [hf, if_pos]
    cases r with
    | body s tok => dsimp only; split <;> exact ⟨rfl, rfl, rfl⟩
    | httpErr st => exact ⟨rfl, rfl, rfl⟩
    | nonDict => exact ⟨rfl, rfl, rfl⟩
    | exn => exact ⟨rfl, rfl, rfl⟩
  · rw [Bool.not_eq_true] at hf
    simp [hf]

theorem refreshFields_after (hash : String → String) (c : Creds) (r : RefreshResp)
    (h : refreshFields c = true) :
    refreshFields ((refresh_access_token_async hash c r).creds) = true := by
  obtain ⟨h1, h2, h3⟩ := refresh_preserves_fields hash c r
  unfold refreshFields at *
  rw [h1, h2, h3]
  exact h

theorem refresh_exchange_isSome (hash : String → String) (c : Creds) (r : RefreshResp)
    (h : refreshFields c = true) :
    (refresh_access_token_async hash c r).exchange.isSome = true := by
  unfold refresh_access_token_async
  simp only [h, if_pos]
  cases r with
  | body s tok => dsimp only; split <;> rfl
  | httpErr st => rfl
  | nonDict => rfl
  | exn => rfl

/-- C1 counterexample: the claim says that when K tasks call refresh
while one is in flight exactly one network exchange occurs and all K
observe the same token. In the source, the asyncio lock only serializes
the calls and the double-check block under the lock is a no-op, so each
waiter performs its own exchange after acquiring the lock: two
serialized calls against complete credentials perform two exchanges,
not one, and the two callers can observe two different tokens. -/
theorem c1_single_flight_cex :
    (refreshSerial (fun _ => "h") ⟨some "cid", some "tok0", some "rt", some "sec"⟩
      [RefreshResp.body "ok" (some "t1"), RefreshResp.body "ok" (some "t2")]).exchanges = 2 ∧
    (refreshSerial (fun _ => "h") ⟨some "cid", some "tok0", some "rt", some "sec"⟩
      [RefreshResp.body "ok" (some "t1"), RefreshResp.body "ok" (some "t2")]).exchanges ≠ 1 ∧
    (refreshSerial (fun _ => "h") ⟨some "cid", some "tok0", some "rt", some "sec"⟩
      [RefreshResp.body "ok" (some "t1"), RefreshResp.body "ok" (some "t2")]).outcomes
      = [some "t1", some "t2"] := by
  decide

/-- C1 amended: refresh is mutually exclusive but not single-flight.
The refresh_lock serializes concurrent refresh calls, so at most one
exchange is in flight at a time; but because the double-check under the
lock is a no-op, every serialized caller with complete credential
fields performs its own network exchange and observes the outcome of
its own exchange: K calls produce exactly K exchanges (and K
per-caller outcomes). -/
theorem c1_serialized_refresh_amended (hash : String → String) (c : Creds)
    (resps : List RefreshResp) (h : refreshFields c = true) :
    (refreshSerial hash c resps).exchanges = resps.length ∧
    (refreshSerial hash c resps).outcomes.length = resps.length := by
  induction resps generalizing c with
  | nil => simp [refreshSerial]
  | cons r rs ih =>
      have h2 := refreshFields_after hash c r h
      have hex := refresh_exchange_isSome hash c r h
      have hrest := ih ((refresh_access_token_async hash c r).creds) h2
      unfold refreshSerial
      dsimp only
      rw [hex]
      simp [hrest.1, hrest.2]
      omega

theorem c1_amended_witness :
    refreshFields ⟨some "cid", some "t0", some "rt", some "sec"⟩ = true ∧
    (refreshSerial (fun _ => "h") ⟨some "cid", some "t0", some "rt", some "sec"⟩
      [RefreshResp.exn, RefreshResp.exn, RefreshResp.exn]).exchanges = 3 :=
  ⟨by decide, by
    have h := c1_serialized_refresh_amended (fun _ => "h")
      ⟨some "cid", some "t0", some "rt", some "sec"⟩
      [RefreshResp.exn, RefreshResp.exn, RefreshResp.exn] (by decide)
    simpa using h.1⟩

/-- C9: refresh returns a new token exactly when all three credential
fields are present, the endpoint is called with the JSON body
(grant_type refresh_token, appIdHash the digest of client_id colon
app_secret, the refresh token), and the response is a 200 dict with s
equal to ok and a nonempty access_token; whenever a field is missing no
exchange is issued at all, and any call issues at most one exchange,
always with that body (no internal retry of the refresh). -/
theorem c9_refresh_contract (hash : String → String) (c : Creds) (resp : RefreshResp) :
    (refreshFields c = false →
      refresh_access_token_async hash c resp
        = { result := none, creds := c, exchange := none }) ∧
    (refreshFields c = true →
      (refresh_access_token_async hash c resp).exchange
        = some (refreshRequestFor hash (c.client_id.getD "") (c.app_secret.getD "")
            (c.refresh_token.getD ""))) ∧
    (∀ t : String,
      (refresh_access_token_async hash c resp).result = some t ↔
        (refreshFields c = true ∧ resp = RefreshResp.body "ok" (some t) ∧ t ≠ "")) := by
  refine ⟨?_, ?_, ?_⟩
  · intro hf
    simp [refresh_access_token_async, hf]
  · intro hf
    unfold refresh_access_token_async
    simp only [hf, if_pos]
    cases resp with
    | body s tok => dsimp only; split <;> rfl
    | httpErr st => rfl
    | nonDict => rfl
    | exn => rfl
  · intro t
    by_cases hf : refreshFields c = true
    · cases resp with
      | body s tok =>
          by_cases hok : (s == "ok" && present tok) = true
          · have hs : s = "ok" := by
              have := (Bool.and_eq_true _ _).mp hok
              exact beq_iff_eq.mp this.1
            obtain ⟨u, hu, hne⟩ := (present_iff tok).mp ((Bool.and_eq_true _ _).mp hok).2
            subst hs
            subst hu
            have hred : refresh_access_token_async hash c (RefreshResp.body "ok" (some u))
                = { result := some u, creds := { c with access_token := some u },
                    exchange := some (refreshRequestFor hash (c.client_id.getD "")
                      (c.app_secret.getD "") (c.refresh_token.getD "")) } := by
              unfold refresh_access_token_async
              simp only [hf, if_pos]
              rw [if_pos hok]
            rw [hred]
            constructor
            · intro hres
              simp only [Option.some.injEq] at hres
              subst hres
              exact ⟨hf, rfl, hne⟩
            · rintro ⟨_, hbody, _⟩
              injection hbody with hb1 hb2
              try exact hb2
          · have hred : refresh_access_token_async hash c (RefreshResp.body s tok)
                = { result := none, creds := c,
                    exchange := some (refreshRequestFor hash (c.client_id.getD "")
                      (c.app_secret.getD "") (c.refresh_token.getD "")) } := by
              unfold refresh_access_token_async
              simp only [hf, if_pos]
              rw [if_neg hok]
            rw [hred]
            constructor
            · intro hres
              exact absurd hres (by simp)
            · rintro ⟨_, hbody, hne⟩
              exfalso
              apply hok
              injection hbody with hb1 hb2
              subst hb1
              subst hb2
              simp [present, hne]
      | httpErr st => simp [refresh_access_token_async, hf]
      | nonDict => simp [refresh_access_token_async, hf]
      | exn => simp [refresh_access_token_async, hf]
    · rw [Bool.not_eq_true] at hf
      simp [refresh_access_token_async, hf]

theorem c9_refresh_contract_witness :
    refreshFields ⟨some "cid", some "old", some "rt", some "sec"⟩ = true ∧
    (refresh_access_token_async (fun _ => "h")
      ⟨some "cid", some "old", some "rt", some "sec"⟩
      (RefreshResp.body "ok" (some "newtok"))).result = some "newtok" :=
  ⟨by decide,
    ((c9_refresh_contract (fun _ => "h") ⟨some "cid", some "old", some "rt", some "sec"⟩
      (RefreshResp.body "ok" (some "newtok"))).2.2 "newtok").mpr
        ⟨by decide, rfl, by decide⟩⟩

-- ---------- Theorems: fetch worker helpers ----------

theorem credRefreshIfMissing_ready (hash : String → String) (c : Creds) (r : RefreshResp)
    (h : credsReady c = true) : credRefreshIfMissing hash c r = c := by
  simp [credRefreshIfMissing, h]

theorem attemptStep_ready (hash : String → String) (mA : Nat) (sym : String) (c : Creds)
    (a : Nat) (e : AttemptEnv) (h : credsReady c = true) :
    attemptStep hash mA sym c a e = classify hash mA sym c a e := by
  unfold attemptStep
  rw [credRefreshIfMissing_ready hash c e.refreshMissing h]
  simp [h]

theorem classify_retry_of_429 (hash : String → String) (mA : Nat) (sym : String) (c : Creds)
    (a : Nat) (e : AttemptEnv) (he : e.http = HttpEvent.httpStatus 429) :
    classify hash mA sym c a e = StepRes.retry c := by
  unfold classify
  rw [he]
  simp

theorem classify_retry_of_5xx (hash : String → String) (mA : Nat) (sym : String) (c : Creds)
    (a : Nat) (e : AttemptEnv) (code : Nat) (he : e.http = HttpEvent.httpStatus code)
    (h5 : 500 ≤ code) (h6 : code < 600) :
    classify hash mA sym c a e = StepRes.retry c := by
  have h1 : ¬code = 429 := by omega
  simp [classify, he, h1, h5, h6]

theorem classify_retry_of_sinkFail (hash : String → String) (mA : Nat) (sym : String) (c : Creds)
    (a : Nat) (e : AttemptEnv) (he : e.http = HttpEvent.http200 (Body200.successBody false)) :
    classify hash mA sym c a e = StepRes.retry c := by
  simp [classify, he]

theorem classify_done_of_success (hash : String → String) (mA : Nat) (sym : String) (c : Creds)
    (a : Nat) (e : AttemptEnv) (he : e.http = HttpEvent.http200 (Body200.successBody true)) :
    classify hash mA sym c a e = StepRes.done (successOut sym a) := by
  simp [classify, he]

theorem fetchGo_done_after_retries (hash : String → String) (mA : Nat) (env : Nat → AttemptEnv)
    (sym : String) :
    ∀ (j fuel attempt : Nat) (c : Creds) (out : FetchOutput),
    (∀ i, attempt < i → i ≤ attempt + j → attemptStep hash mA sym c i (env i) = StepRes.retry c) →
    attemptStep hash mA sym c (attempt + j + 1) (env (attempt + j + 1)) = StepRes.done out →
    j + 1 ≤ fuel →
    fetchGo hash mA env sym c attempt fuel = out := by
  intro j
  induction j with
  | zero =>
      intro fuel attempt c out hall hdone hfl
      obtain ⟨f, rfl⟩ : ∃ f, fuel = f + 1 := ⟨fuel - 1, by omega⟩
      have hdone1 : attemptStep hash mA sym c (attempt + 1) (env (attempt + 1))
          = StepRes.done out := by simpa using hdone
      simp [fetchGo, hdone1]
  | succ j ih =>
      intro fuel attempt c out hall hdone hfl
      obtain ⟨f, rfl⟩ : ∃ f, fuel = f + 1 := ⟨fuel - 1, by omega⟩
      have hret : attemptStep hash mA sym c (attempt + 1) (env (attempt + 1))
          = StepRes.retry c := hall (attempt + 1) (by omega) (by omega)
      have hstep : fetchGo hash mA env sym c attempt (f + 1)
          = fetchGo hash mA env sym c (attempt + 1) f := by
        simp [fetchGo, hret]
      rw [hstep]
      apply ih f (attempt + 1) c out
      · intro i h1 h2
        exact hall i (by omega) (by omega)
      · have hx : attempt + 1 + j + 1 = attempt + (j + 1) + 1 := by omega
        rw [hx]
        exact hdone
      · omega

theorem fetchGo_all_retries (hash : String → String) (mA : Nat) (env : Nat → AttemptEnv)
    (sym : String) :
    ∀ (fuel attempt : Nat) (c : Creds),
    (∀ i, attempt < i → i ≤ attempt + fuel → attemptStep hash mA sym c i (env i) = StepRes.retry c) →
    fetchGo hash mA env sym c attempt fuel = dlqExit mA sym (attempt + fuel) := by
  intro fuel
  induction fuel with
  | zero => intro attempt c _; simp [fetchGo]
  | succ f ih =>
      intro attempt c hall
      have hret : attemptStep hash mA sym c (attempt + 1) (env (attempt + 1))
          = StepRes.retry c := hall (attempt + 1) (by omega) (by omega)
      have hstep : fetchGo hash mA env sym c attempt (f + 1)
          = fetchGo hash mA env sym c (attempt + 1) f := by
        simp [fetchGo, hret]
      rw [hstep]
      have hrec := ih (attempt + 1) c (fun i h1 h2 => hall i (by omega) (by omega))
      rw [hrec]
      have hx : attempt + 1 + f = attempt + (f + 1) := by omega
      rw [hx]

theorem classify_shape (hash : String → String) (mA : Nat) (sym : String) (c : Creds)
    (a : Nat) (e : AttemptEnv) :
    (∃ c1, classify hash mA sym c a e = StepRes.retry c1) ∨
    classify hash mA sym c a e = StepRes.done (successOut sym a) ∨
    classify hash mA sym c a e = StepRes.done (dlqExit mA sym a) := by
  obtain ⟨hp, r1, r2⟩ := e
  cases hp with
  | http200 b =>
      cases b with
      | errorBody msg =>
          simp only [classify]
          split
          · split
            · exact Or.inl ⟨_, rfl⟩
            · exact Or.inr (Or.inr rfl)
          · exact Or.inl ⟨c, rfl⟩
      | successBody sinkOk =>
          simp only [classify]
          cases sinkOk
          · exact Or.inl ⟨c, by simp⟩
          · exact Or.inr (Or.inl (by simp))
  | httpStatus code =>
      simp only [classify]
      split
      · exact Or.inl ⟨c, rfl⟩
      · split
        · exact Or.inl ⟨c, rfl⟩
        · split
          · split
            · split
              · exact Or.inl ⟨_, rfl⟩
              · exact Or.inr (Or.inr rfl)
            · exact Or.inr (Or.inr rfl)
          · exact Or.inl ⟨c, rfl⟩
  | timeout => exact Or.inl ⟨c, by simp [classify]⟩
  | netExn => exact Or.inl ⟨c, by simp [classify]⟩

theorem attemptStep_shape (hash : String → String) (mA : Nat) (sym : String) (c : Creds)
    (a : Nat) (e : AttemptEnv) :
    (∃ c1, attemptStep hash mA sym c a e = StepRes.retry c1) ∨
    attemptStep hash mA sym c a e = StepRes.done (successOut sym a) ∨
    attemptStep hash mA sym c a e = StepRes.done (missingOut sym a) ∨
    attemptStep hash mA sym c a e = StepRes.done (dlqExit mA sym a) := by
  unfold attemptStep
  dsimp only
  by_cases h : credsReady (credRefreshIfMissing hash c e.refreshMissing) = true
  · rw [if_pos h]
    rcases classify_shape hash mA sym (credRefreshIfMissing hash c e.refreshMissing) a e with
      ⟨c1, hc⟩ | hc | hc
    · exact Or.inl ⟨c1, hc⟩
    · exact Or.inr (Or.inl hc)
    · exact Or.inr (Or.inr (Or.inr hc))
  · rw [if_neg h]
    exact Or.inr (Or.inr (Or.inl rfl))

theorem fetchGo_shape (hash : String → String) (mA : Nat) (env : Nat → AttemptEnv)
    (sym : String) :
    ∀ (fuel attempt : Nat) (c : Creds),
    (∃ a, fetchGo hash mA env sym c attempt fuel = successOut sym a) ∨
    (∃ a, fetchGo hash mA env sym c attempt fuel = missingOut sym a) ∨
    (∃ a, fetchGo hash mA env sym c attempt fuel = dlqExit mA sym a) := by
  intro fuel
  induction fuel with
  | zero => intro attempt c; exact Or.inr (Or.inr ⟨attempt, rfl⟩)
  | succ f ih =>
      intro attempt c
      rcases attemptStep_shape hash mA sym c (attempt + 1) (env (attempt + 1)) with
        ⟨c1, h⟩ | h | h | h
      · have hstep : fetchGo hash mA env sym c attempt (f + 1)
            = fetchGo hash mA env sym c1 (attempt + 1) f := by
          simp [fetchGo, h]
        rw [hstep]
        exact ih (attempt + 1) c1
      · exact Or.inl ⟨attempt + 1, by simp [fetchGo, h]⟩
      · exact Or.inr (Or.inl ⟨attempt + 1, by simp [fetchGo, h]⟩)
      · exact Or.inr (Or.inr ⟨attempt + 1, by simp [fetchGo, h]⟩)

-- ---------- Theorems: fetch worker claims ----------

/-- C5: for every k with 1 <= k <= MAX_ATTEMPTS, a symbol whose attempts
1..k-1 each return HTTP 429 and whose attempt k returns HTTP 200 with a
success body (and a successful raw write) produces exactly the one
result of fetch_one, with succeeded true, attempts_used k, status 200,
and no dead-letter write. -/
theorem c5_retry_then_success (hash : String → String) (mA k : Nat) (env : Nat → AttemptEnv)
    (sym : String) (c : Creds) (hc : credsReady c = true)
    (hk1 : 1 ≤ k) (hk2 : k ≤ mA)
    (h429 : ∀ i, 1 ≤ i → i < k → (env i).http = HttpEvent.httpStatus 429)
    (hok : (env k).http = HttpEvent.http200 (Body200.successBody true)) :
    fetch_one hash mA env sym c = successOut sym k := by
  unfold fetch_one
  have hx : 0 + (k - 1) + 1 = k := by omega
  apply fetchGo_done_after_retries hash mA env sym (k - 1) mA 0 c
  · intro i h1 h2
    rw [attemptStep_ready hash mA sym c i (env i) hc]
    exact classify_retry_of_429 hash mA sym c i (env i) (h429 i (by omega) (by omega))
  · rw [attemptStep_ready hash mA sym c (0 + (k - 1) + 1) (env (0 + (k - 1) + 1)) hc]
    rw [hx]
    exact classify_done_of_success hash mA sym c k (env k) hok
  · omega

theorem c5_retry_then_success_witness :
    credsReady ⟨some "cid", some "tok", none, none⟩ = true ∧
    fetch_one (fun _ => "h") 5
      (fun i => if i < 3 then ⟨HttpEvent.httpStatus 429, RefreshResp.exn, RefreshResp.exn⟩
                else ⟨HttpEvent.http200 (Body200.successBody true), RefreshResp.exn, RefreshResp.exn⟩)
      "X" ⟨some "cid", some "tok", none, none⟩ = successOut "X" 3 :=
  ⟨by decide,
    c5_retry_then_success (fun _ => "h") 5 3
      (fun i => if i < 3 then ⟨HttpEvent.httpStatus 429, RefreshResp.exn, RefreshResp.exn⟩
                else ⟨HttpEvent.http200 (Body200.successBody true), RefreshResp.exn, RefreshResp.exn⟩)
      "X" ⟨some "cid", some "tok", none, none⟩ (by decide) (by omega) (by omega)
      (fun i h1 h2 => by
        have h3 : i = 1 ∨ i = 2 := by omega
        rcases h3 with h3 | h3 <;> subst h3 <;> rfl)
      (by rfl)⟩

/-- C6: a symbol whose every attempt returns HTTP 500 produces exactly
the one result of fetch_one with succeeded false and attempts_used equal
to MAX_ATTEMPTS, and exactly one dead-letter write occurs for it. -/
theorem c6_exhaustion_dlq (hash : String → String) (mA : Nat) (env : Nat → AttemptEnv)
    (sym : String) (c : Creds) (hc : credsReady c = true)
    (h500 : ∀ i, 1 ≤ i → i ≤ mA → (env i).http = HttpEvent.httpStatus 500) :
    fetch_one hash mA env sym c = dlqExit mA sym mA ∧
    (fetch_one hash mA env sym c).dlq.length = 1 ∧
    (fetch_one hash mA env sym c).result.succeeded = false ∧
    (fetch_one hash mA env sym c).result.attempts_used = mA := by
  have hmain : fetch_one hash mA env sym c = dlqExit mA sym mA := by
    unfold fetch_one
    have h := fetchGo_all_retries hash mA env sym mA 0 c (by
      intro i h1 h2
      rw [attemptStep_ready hash mA sym c i (env i) hc]
      exact classify_retry_of_5xx hash mA sym c i (env i) 500
        (h500 i (by omega) (by omega)) (by omega) (by omega))
    simpa using h
  refine ⟨hmain, ?_, ?_, ?_⟩ <;> rw [hmain] <;> rfl

theorem c6_exhaustion_dlq_witness :
    credsReady ⟨some "cid", some "tok", none, none⟩ = true ∧
    fetch_one (fun _ => "h") 5
      (fun _ => ⟨HttpEvent.httpStatus 500, RefreshResp.exn, RefreshResp.exn⟩)
      "X" ⟨some "cid", some "tok", none, none⟩ = dlqExit 5 "X" 5 :=
  ⟨by decide,
    (c6_exhaustion_dlq (fun _ => "h") 5
      (fun _ => ⟨HttpEvent.httpStatus 500, RefreshResp.exn, RefreshResp.exn⟩)
      "X" ⟨some "cid", some "tok", none, none⟩ (by decide) (fun i h1 h2 => rfl)).1⟩

/-- C3 counterexample: the claim says a failed sink write of a
successful payload is escalated as a hard error for the symbol and the
fetch loop does not re-enter backoff-and-retry because of it. In the
source the ClientError re-raised by s3_put_raw is caught by the generic
per-attempt exception handler of fetch_one, which sleeps and continues:
at this concrete input the write of attempt 1 fails and the loop runs a
second attempt, which succeeds, so the symbol ends succeeded with
attempts_used 2 instead of hard-failing at attempt 1. -/
theorem c3_sink_failure_retried_cex :
    (fetch_one (fun _ => "h") 5
      (fun i => if i = 1 then ⟨HttpEvent.http200 (Body200.successBody false), RefreshResp.exn, RefreshResp.exn⟩
                else ⟨HttpEvent.http200 (Body200.successBody true), RefreshResp.exn, RefreshResp.exn⟩)
      "X" ⟨some "cid", some "tok", none, none⟩).result.attempts_used = 2 ∧
    (fetch_one (fun _ => "h") 5
      (fun i => if i = 1 then ⟨HttpEvent.http200 (Body200.successBody false), RefreshResp.exn, RefreshResp.exn⟩
                else ⟨HttpEvent.http200 (Body200.successBody true), RefreshResp.exn, RefreshResp.exn⟩)
      "X" ⟨some "cid", some "tok", none, none⟩).result.succeeded = true ∧
    (fetch_one (fun _ => "h") 5
      (fun i => if i = 1 then ⟨HttpEvent.http200 (Body200.successBody false), RefreshResp.exn, RefreshResp.exn⟩
                else ⟨HttpEvent.http200 (Body200.successBody true), RefreshResp.exn, RefreshResp.exn⟩)
      "X" ⟨some "cid", some "tok", none, none⟩).sinkWrites = 1 := by
  decide

/-- C3 amended: a sink write failure on the success path is caught by
the generic per-attempt exception handler and treated like any other
transient failure: the loop re-enters backoff-and-retry, the payload is
re-fetched, and if attempts 1..k-1 all end in failed writes while the
write of attempt k succeeds, the symbol ends succeeded with
attempts_used k (it is not hard-failed at the first write error). -/
theorem c3_sink_failure_transient_amended (hash : String → String) (mA k : Nat)
    (env : Nat → AttemptEnv) (sym : String) (c : Creds) (hc : credsReady c = true)
    (hk1 : 1 ≤ k) (hk2 : k ≤ mA)
    (hfail : ∀ i, 1 ≤ i → i < k → (env i).http = HttpEvent.http200 (Body200.successBody false))
    (hok : (env k).http = HttpEvent.http200 (Body200.successBody true)) :
    fetch_one hash mA env sym c = successOut sym k := by
  unfold fetch_one
  have hx : 0 + (k - 1) + 1 = k := by omega
  apply fetchGo_done_after_retries hash mA env sym (k - 1) mA 0 c
  · intro i h1 h2
    rw [attemptStep_ready hash mA sym c i (env i) hc]
    exact classify_retry_of_sinkFail hash mA sym c i (env i) (hfail i (by omega) (by omega))
  · rw [attemptStep_ready hash mA sym c (0 + (k - 1) + 1) (env (0 + (k - 1) + 1)) hc]
    rw [hx]
    exact classify_done_of_success hash mA sym c k (env k) hok
  · omega

theorem c3_sink_failure_transient_witness :
    credsReady ⟨some "cid", some "tok", none, none⟩ = true ∧
    fetch_one (fun _ => "h") 4
      (fun i => if i < 2 then ⟨HttpEvent.http200 (Body200.successBody false), RefreshResp.exn, RefreshResp.exn⟩
                else ⟨HttpEvent.http200 (Body200.successBody true), RefreshResp.exn, RefreshResp.exn⟩)
      "Y" ⟨some "cid", some "tok", none, none⟩ = successOut "Y" 2 :=
  ⟨by decide,
    c3_sink_failure_transient_amended (fun _ => "h") 4 2
      (fun i => if i < 2 then ⟨HttpEvent.http200 (Body200.successBody false), RefreshResp.exn, RefreshResp.exn⟩
                else ⟨HttpEvent.http200 (Body200.successBody true), RefreshResp.exn, RefreshResp.exn⟩)
      "Y" ⟨some "cid", some "tok", none, none⟩ (by decide) (by omega) (by omega)
      (fun i h1 h2 => by
        have h3 : i = 1 := by omega
        subst h3
        rfl)
      (by rfl)⟩

/-- C2 counterexample: the claim says every terminal failure, including
the missing-credentials abort, writes exactly one dead-letter record
before the failed result is returned. At this concrete input the
credentials hold no access token and no refresh token, so fetch_one
returns the failed missing_credentials result directly from inside the
attempt loop (line 268 of the source) without any dead-letter write. -/
theorem c2_missing_creds_no_dlq_cex :
    (fetch_one (fun _ => "h") 5
      (fun _ => ⟨HttpEvent.httpStatus 500, RefreshResp.exn, RefreshResp.exn⟩)
      "Z" ⟨some "cid", none, none, none⟩).result.succeeded = false ∧
    (fetch_one (fun _ => "h") 5
      (fun _ => ⟨HttpEvent.httpStatus 500, RefreshResp.exn, RefreshResp.exn⟩)
      "Z" ⟨some "cid", none, none, none⟩).dlq = [] ∧
    (fetch_one (fun _ => "h") 5
      (fun _ => ⟨HttpEvent.httpStatus 500, RefreshResp.exn, RefreshResp.exn⟩)
      "Z" ⟨some "cid", none, none, none⟩).result.note = some "missing_credentials" := by
  decide

/-- C2 amended: every terminal failure that exits the attempt loop by
break or by exhaustion writes exactly one dead-letter record carrying
the attempts used and the failure note; the missing-credentials abort
instead returns its failed result with no dead-letter write. -/
theorem c2_dlq_on_loop_exit_amended (hash : String → String) (mA : Nat)
    (env : Nat → AttemptEnv) (sym : String) (c : Creds)
    (hfail : (fetch_one hash mA env sym c).result.succeeded = false) :
    ((fetch_one hash mA env sym c).result.note = some "missing_credentials" ∧
      (fetch_one hash mA env sym c).dlq = []) ∨
    ((fetch_one hash mA env sym c).result.note = some (exhaustNote mA) ∧
      (fetch_one hash mA env sym c).dlq
        = [{ symbol := sym, attempts := (fetch_one hash mA env sym c).result.attempts_used,
             note := exhaustNote mA }]) := by
  unfold fetch_one at *
  rcases fetchGo_shape hash mA env sym mA 0 c with ⟨a, hs⟩ | ⟨a, hs⟩ | ⟨a, hs⟩
  · rw [hs] at hfail
    exact absurd hfail (by simp [successOut])
  · left
    rw [hs]
    exact ⟨rfl, rfl⟩
  · right
    rw [hs]
    exact ⟨rfl, rfl⟩

theorem c2_dlq_on_loop_exit_witness :
    (fetch_one (fun _ => "h") 3
      (fun _ => ⟨HttpEvent.httpStatus 500, RefreshResp.exn, RefreshResp.exn⟩)
      "Y" ⟨some "cid", some "tok", none, none⟩).result.succeeded = false ∧
    (((fetch_one (fun _ => "h") 3
        (fun _ => ⟨HttpEvent.httpStatus 500, RefreshResp.exn, RefreshResp.exn⟩)
        "Y" ⟨some "cid", some "tok", none, none⟩).result.note = some "missing_credentials" ∧
      (fetch_one (fun _ => "h") 3
        (fun _ => ⟨HttpEvent.httpStatus 500, RefreshResp.exn, RefreshResp.exn⟩)
        "Y" ⟨some "cid", some "tok", none, none⟩).dlq = []) ∨
    ((fetch_one (fun _ => "h") 3
        (fun _ => ⟨HttpEvent.httpStatus 500, RefreshResp.exn, RefreshResp.exn⟩)
        "Y" ⟨some "cid", some "tok", none, none⟩).result.note = some (exhaustNote 3) ∧
      (fetch_one (fun _ => "h") 3
        (fun _ => ⟨HttpEvent.httpStatus 500, RefreshResp.exn, RefreshResp.exn⟩)
        "Y" ⟨some "cid", some "tok", none, none⟩).dlq
        = [{ symbol := "Y",
             attempts := (fetch_one (fun _ => "h") 3
               (fun _ => ⟨HttpEvent.httpStatus 500, RefreshResp.exn, RefreshResp.exn⟩)
               "Y" ⟨some "cid", some "tok", none, none⟩).result.attempts_used,
             note := exhaustNote 3 }])) :=
  ⟨by decide,
    c2_dlq_on_loop_exit_amended (fun _ => "h") 3
      (fun _ => ⟨HttpEvent.httpStatus 500, RefreshResp.exn, RefreshResp.exn⟩)
      "Y" ⟨some "cid", some "tok", none, none⟩ (by decide)⟩

/-- C10: every fetch_one execution that terminates through the
dead-letter path (any break out of the attempt loop or loop exhaustion,
witnessed by a nonempty dead-letter list) carries the fixed failure
note built only from MAX_ATTEMPTS and a result http_status of none,
regardless of the actual cause and of how many attempts were used. -/
theorem c10_fixed_failure_note (hash : String → String) (mA : Nat)
    (env : Nat → AttemptEnv) (sym : String) (c : Creds)
    (h : (fetch_one hash mA env sym c).dlq ≠ []) :
    (fetch_one hash mA env sym c).result.note = some (exhaustNote mA) ∧
    (fetch_one hash mA env sym c).result.http_status = none ∧
    ∀ r ∈ (fetch_one hash mA env sym c).dlq, r.note = exhaustNote mA := by
  unfold fetch_one at *
  rcases fetchGo_shape hash mA env sym mA 0 c with ⟨a, hs⟩ | ⟨a, hs⟩ | ⟨a, hs⟩
  · rw [hs] at h
    exact absurd rfl h
  · rw [hs] at h
    exact absurd rfl h
  · rw [hs]
    refine ⟨rfl, rfl, ?_⟩
    intro r hr
    simp only [dlqExit, List.mem_singleton] at hr
    rw [hr]

theorem c10_fixed_failure_note_witness :
    (fetch_one (fun _ => "h") 4
      (fun _ => ⟨HttpEvent.httpStatus 401, RefreshResp.exn, RefreshResp.exn⟩)
      "W" ⟨some "cid", some "tok", none, none⟩).dlq ≠ [] ∧
    (fetch_one (fun _ => "h") 4
      (fun _ => ⟨HttpEvent.httpStatus 401, RefreshResp.exn, RefreshResp.exn⟩)
      "W" ⟨some "cid", some "tok", none, none⟩).result.attempts_used = 1 ∧
    (fetch_one (fun _ => "h") 4
      (fun _ => ⟨HttpEvent.httpStatus 401, RefreshResp.exn, RefreshResp.exn⟩)
      "W" ⟨some "cid", some "tok", none, none⟩).result.note = some (exhaustNote 4) ∧
    (fetch_one (fun _ => "h") 4
      (fun _ => ⟨HttpEvent.httpStatus 401, RefreshResp.exn, RefreshResp.exn⟩)
      "W" ⟨some "cid", some "tok", none, none⟩).result.http_status = none :=
  ⟨by decide, by decide,
    (c10_fixed_failure_note (fun _ => "h") 4
      (fun _ => ⟨HttpEvent.httpStatus 401, RefreshResp.exn, RefreshResp.exn⟩)
      "W" ⟨some "cid", some "tok", none, none⟩ (by decide)).1,
    (c10_fixed_failure_note (fun _ => "h") 4
      (fun _ => ⟨HttpEvent.httpStatus 401, RefreshResp.exn, RefreshResp.exn⟩)
      "W" ⟨some "cid", some "tok", none, none⟩ (by decide)).2.1⟩

-- ---------- Theorems: S3 key layout (C8) ----------

/-- C8 counterexample: the claim says the dead-letter key follows the
analogous layout with the same partition segments symbol=, year=,
month=, day=. In the source the dead-letter key writes a literal path
segment day followed by a separate segment holding the day number
(day/{dd}) instead of day={dd}; and both keys sanitize the symbol
(colon and slash become underscore), so neither key substitutes the
symbol verbatim. At this concrete input the produced keys differ from
the claimed layouts. -/
theorem c8_dlq_key_layout_cex :
    s3_key_for_dlq "NSE:SBIN-EQ" "2024-01-15T10:00:00Z"
      = some "ohlcv/errors/symbol=NSE_SBIN-EQ/year=2024/month=01/day/15/failed-2024-01-15T10:00:00Z.json" ∧
    claimDlqKey "NSE:SBIN-EQ" "2024-01-15T10:00:00Z"
      = some "ohlcv/errors/symbol=NSE:SBIN-EQ/year=2024/month=01/day=15/failed-2024-01-15T10:00:00Z.json" ∧
    s3_key_for_dlq "NSE:SBIN-EQ" "2024-01-15T10:00:00Z"
      ≠ claimDlqKey "NSE:SBIN-EQ" "2024-01-15T10:00:00Z" ∧
    s3_key_for_raw "NSE:SBIN-EQ" "2024-01-15T10:00:00Z"
      ≠ claimRawKey "NSE:SBIN-EQ" "2024-01-15T10:00:00Z" := by
  decide

/-- C8 amended: for every symbol and ingest timestamp whose date part
splits into year, month and day, the success key is
ohlcv/raw/symbol={sanitized sym}/exchange=NSE/year={yyyy}/month={mm}/day={dd}/ingest-{iso}.json
(matching the claimed success layout verbatim whenever the symbol needs
no sanitizing), while the dead-letter key sits under the errors root
with segments symbol= and year= and month= but writes the day as the
two path segments day/{dd} (not day={dd}) and file name failed-{iso}.json. -/
theorem c8_key_layout_amended (symbol ts : String) (yyyy mm dd : List Char)
    (h : splitChar '-' ((splitChar 'T' ts.data).headD []) = [yyyy, mm, dd]) :
    s3_key_for_raw symbol ts
      = some (rawRoot ++ "symbol=" ++ sanitizeSymbol symbol ++ "/exchange=NSE/year="
          ++ String.mk yyyy ++ "/month=" ++ String.mk mm ++ "/day=" ++ String.mk dd
          ++ "/ingest-" ++ ts ++ ".json") ∧
    s3_key_for_dlq symbol ts
      = some (dlqRoot ++ "symbol=" ++ sanitizeSymbol symbol ++ "/year="
          ++ String.mk yyyy ++ "/month=" ++ String.mk mm ++ "/day/" ++ String.mk dd
          ++ "/failed-" ++ ts ++ ".json") ∧
    (sanitizeSymbol symbol = symbol → s3_key_for_raw symbol ts = claimRawKey symbol ts) := by
  have hdp : dateParts ts = some (String.mk yyyy, String.mk mm, String.mk dd) := by
    unfold dateParts
    rw [h]
  refine ⟨?_, ?_, ?_⟩
  · unfold s3_key_for_raw
    rw [hdp]
  · unfold s3_key_for_dlq
    rw [hdp]
  · intro hs
    unfold s3_key_for_raw claimRawKey
    rw [hdp, hs]

theorem c8_key_layout_witness :
    splitChar '-' ((splitChar 'T' "2025-02-03T04:05:06Z".data).headD [])
      = ["2025".data, "02".data, "03".data] ∧
    s3_key_for_raw "NSE:TCS-EQ" "2025-02-03T04:05:06Z"
      = some (rawRoot ++ "symbol=" ++ sanitizeSymbol "NSE:TCS-EQ" ++ "/exchange=NSE/year="
          ++ String.mk "2025".data ++ "/month=" ++ String.mk "02".data ++ "/day="
          ++ String.mk "03".data ++ "/ingest-" ++ "2025-02-03T04:05:06Z" ++ ".json") :=
  ⟨by decide,
    (c8_key_layout_amended "NSE:TCS-EQ" "2025-02-03T04:05:06Z"
      "2025".data "02".data "03".data (by decide)).1⟩
